import Mathlib

/-!
Shallow embedding of the recording pipeline in `diskwriter/diskwriter.go`
(package `diskwriter` of the galene repository).

Modelling conventions:
* Go `uint32` / `uint64` values are `Nat` with explicit `% 2^32` where Go
  overflow semantics matter (RTP timestamps, the 33-bit origin field).
* `*os.File` handles and `webm.BlockWriteCloser` handles carry no data the
  recorder inspects, so presence is modelled as `Bool` (nil / non-nil).
* Fallible external calls (`openDiskFile`'s `os.OpenFile`, and
  `webm.NewSimpleBlockWriter`) are driven by explicit oracles supplied as
  arguments, so that every control path of the source is reachable.
* Fields of the Go structs that are pure identity or IO references never
  inspected by the modelled logic (`client`, `remote conn.Up`, `directory`,
  `label`, the mutex `mu`) are omitted; `directory`/`label` only feed the
  file-name computation, which receives them as parameters.
* `WriteRTP` drains the sample builder in a loop; each loop iteration
  handles one popped sample.  An early `return` leaves the remaining
  samples queued in the builder for the next call, so the per-sample
  processing trace across calls is a fold of the per-iteration step
  function over the sequence of drained samples; that step function is
  modelled here (`vp8SampleStep` for the `case "video/vp8"` arm,
  `audioSampleStep` for the `default` arm of the codec switch).
-/

namespace Galene

/-- Closed variant for `strings.ToLower(codec.MimeType)` as switched on by
`newDiskConn`, `WriteRTP` and `initWriter` (design note of the spec: a closed
codec variant instead of repeated string comparisons). -/
inductive Codec where
  | opus
  | vp8
  | other (mime : String)
deriving DecidableEq, Repr

/-- The part of the remote track's `Codec()` descriptor that the recorder
reads: mime type, clock rate, channel count. -/
structure CodecDesc where
  mimeType : Codec
  clockRate : Nat
  channels : Nat
deriving DecidableEq, Repr

/-- Go struct `diskTrack`: the remote track's codec descriptor (the only part
of `t.remote` the modelled logic reads), the container block writer handle
(`webm.BlockWriteCloser`, present or nil), the 33-bit `origin` field
(bit 32 is a boolean indicating that the origin is valid), and `lastKf`. -/
structure DiskTrack where
  remote : CodecDesc
  writer : Bool
  origin : Nat
  lastKf : Nat
deriving DecidableEq, Repr

/-- Go struct `diskConn`: `hasVideo`, the output `file` handle (present or
nil), the track list, current `width`/`height`, and `lastWarning` (a
`time.Time`, modelled as nanoseconds since the zero time). -/
structure DiskConn where
  hasVideo : Bool
  file : Bool
  tracks : List DiskTrack
  width : Nat
  height : Nat
  lastWarning : Int
deriving DecidableEq, Repr

/-- Oracle for the two fallible external calls inside `diskConn.initWriter`:
whether `openDiskFile` succeeds, and what `webm.NewSimpleBlockWriter`
returns (`none` = construction error, `some n` = a slice of `n` writers). -/
structure InitOracle where
  openOk : Bool
  muxWriters : Option Nat
deriving DecidableEq, Repr

/-- Codecs accepted by the `switch` in `diskConn.initWriter`'s entry-building
loop (`audio/opus`, `video/vp8`; anything else hits the `default` arm). -/
def supportedCodec : Codec → Bool
  | Codec.opus => true
  | Codec.vp8 => true
  | Codec.other _ => false

/-- Go `diskConn.warn` (called locked): suppressed when less than 10 seconds
(`10*time.Second` = 10^10 ns) elapsed since `lastWarning`; otherwise logs,
calls `WallOps`, and updates `lastWarning`.  Returns the updated connection
and whether the notification was emitted. -/
def connWarn (c : DiskConn) (now : Int) : DiskConn × Bool :=
  if now - c.lastWarning < 10 * 1000000000 then (c, false)
  else ({ c with lastWarning := now }, true)

/-- Emission pattern of a sequence of `warn` calls at the given times. -/
def connWarnTrace (c : DiskConn) : List Int → List Bool
  | [] => []
  | t :: ts =>
    let r := connWarn c t
    r.2 :: connWarnTrace r.1 ts

/-- Go `diskConn.initWriter(width, height)` (called locked).  The oracle `o`
decides the outcomes of `openDiskFile` (inside `reopen`) and of
`webm.NewSimpleBlockWriter`.  Returns the updated connection and the error
(`none` = success).  The source builds the entry list first (erroring on an
unsupported codec with the connection untouched), then calls `reopen` (which
closes and clears every track writer and replaces the file), then constructs
the block writers, then checks the writer count, then commits
width/height and assigns the writers. -/
def connInitWriter (o : InitOracle) (c : DiskConn) (width height : Nat) :
    DiskConn × Option String :=
  if c.file = true ∧ width = c.width ∧ height = c.height then (c, none)
  else if c.tracks.all (fun t => supportedCodec t.remote.mimeType) = false then
    (c, some ("unknown track type"))
  else
    let c1 : DiskConn :=
      { c with tracks := c.tracks.map (fun t => { t with writer := false }),
               file := false }
    if o.openOk = false then (c1, some ("couldn\x27t create file"))
    else
      let c2 : DiskConn := { c1 with file := true }
      match o.muxWriters with
      | none => ({ c2 with file := false }, some ("webm writer error"))
      | some n =>
        if n ≠ c2.tracks.length then
          ({ c2 with file := false }, some ("unexpected number of writers"))
        else
          ({ c2 with width := width, height := height,
                     tracks := c2.tracks.map (fun t => { t with writer := true }) },
           none)

/-- Go `diskConn.Close`: closes and clears every track writer under the lock
(then detaches each track from its remote source, an external effect).  Note
that the source does not reset `conn.file` here. -/
def connClose (c : DiskConn) : DiskConn :=
  { c with tracks := c.tracks.map (fun t => { t with writer := false }) }

/-- The all-or-nothing invariant claimed for a connection recorder: the output
file and every per-track writer are all present, or all absent. -/
def connInv (c : DiskConn) : Prop :=
  (c.file = true ∧ ∀ t ∈ c.tracks, t.writer = true) ∨
  (c.file = false ∧ ∀ t ∈ c.tracks, t.writer = false)

instance (c : DiskConn) : Decidable (connInv c) := by
  unfold connInv; infer_instance

/-- Point update of list element `i` (Go mutates `conn.tracks[i]` in place
through the method receiver `t`). -/
def modifyNth (f : DiskTrack → DiskTrack) : Nat → List DiskTrack → List DiskTrack
  | _, [] => []
  | 0, t :: ts => f t :: ts
  | n + 1, t :: ts => t :: modifyNth f n ts

/-- Whether track `i` of the connection currently has a block writer. -/
def trackWriter (c : DiskConn) (i : Nat) : Bool :=
  ((c.tracks[i]?).map DiskTrack.writer).getD false

/-- The `lastKf` field of track `i`. -/
def lastKfOf (c : DiskConn) (i : Nat) : Nat :=
  ((c.tracks[i]?).map DiskTrack.lastKf).getD 0

/-- Sets `t.lastKf = ts` on track `i`. -/
def setLastKf (c : DiskConn) (i : Nat) (ts : Nat) : DiskConn :=
  { c with tracks := modifyNth (fun t => { t with lastKf := ts }) i c.tracks }

/-- Lines 390–395 of `diskTrack.WriteRTP`:
`if t.origin == 0 { t.origin = uint64(ts) | (1 << 32) }`,
`ts -= uint32(t.origin)` (wrapping 32-bit subtraction), and
`tm := ts / (clockRate / 1000)` (all integer division).  Returns the updated
origin and the block timestamp `tm` in milliseconds. -/
def rebaseStep (clockRate origin ts : Nat) : Nat × Nat :=
  let origin2 := if origin = 0 then ts ||| (1 <<< 32) else origin
  let ts2 := (ts + 2 ^ 32 - origin2 % 2 ^ 32) % 2 ^ 32
  (origin2, ts2 / (clockRate / 1000))

/-- `sample.Data[0]&0x1 == 0`: a VP8 sample is a keyframe when the low bit of
its first payload byte is clear (callers guard for a non-empty payload). -/
def vp8IsKeyframe (data : List Nat) : Bool :=
  data.headD 1 &&& 1 == 0

/-- Go `diskTrack.initWriter(data)` for a `video/vp8` track, reduced to the
dimensions it forwards: payloads shorter than 10 bytes and non-keyframes
yield no call to `diskConn.initWriter` (the function returns nil); otherwise
`raw` is the little-endian 32-bit value of payload bytes 6–9,
`width = raw & 0x3FFF` and `height = (raw >> 16) & 0x3FFF`. -/
def vp8Dims (data : List Nat) : Option (Nat × Nat) :=
  if data.length < 10 then none
  else if vp8IsKeyframe data = false then none
  else
    let raw := data.getD 6 0 ||| data.getD 7 0 <<< 8 |||
      data.getD 8 0 <<< 16 ||| data.getD 9 0 <<< 24
    some (raw &&& 0x3FFF, (raw >>> 16) &&& 0x3FFF)

/-- Externally observable actions of a drain-loop iteration: a call to
`diskConn.initWriter(width, height)`, or `t.writer.Write(keyframe, tm, data)`. -/
inductive Event where
  | init (width height : Nat)
  | write (keyframe : Bool) (tm : Nat) (data : List Nat)
deriving DecidableEq, Repr

/-- Result of one drain-loop iteration: the updated connection, the remaining
oracle stream, the emitted events, whether this iteration flagged
`kfNeeded`, and the error returned (if the iteration returned one). -/
structure StepOut where
  conn : DiskConn
  oracles : List InitOracle
  events : List Event
  kfNeeded : Bool
  err : Option String
deriving DecidableEq, Repr

/-- Lines 383–399 of `diskTrack.WriteRTP`, the tail shared by every codec arm:
if `t.writer == nil` the iteration returns without writing; otherwise the
timestamp is rebased (`rebaseStep`, using the remote codec's clock rate) and
the sample is passed to the track's block writer. -/
def writeSample (c : DiskConn) (i : Nat) (keyframe : Bool)
    (sdata : List Nat) (ts : Nat) : DiskConn × List Event :=
  match c.tracks[i]? with
  | none => (c, [])
  | some t =>
    if t.writer = false then (c, [])
    else
      let r := rebaseStep t.remote.clockRate t.origin ts
      ({ c with tracks := modifyNth (fun u => { u with origin := r.1 }) i c.tracks },
       [Event.write keyframe r.2 sdata])

/-- One iteration of the `WriteRTP` drain loop for a `video/vp8` track
(track index `i`), on the popped sample `(sdata, ts)`:
empty payloads are skipped (`continue`); for a keyframe, `t.initWriter`
runs (`vp8Dims`; a parsed header triggers `diskConn.initWriter`, whose
failure aborts the iteration with the error) and on success `t.lastKf = ts`;
for a delta frame with a live writer, a keyframe request is flagged when the
wrap-aware delta since `lastKf` exceeds `10*90000`; finally the shared
write tail (`writeSample`) runs. -/
def vp8SampleStep (c : DiskConn) (i : Nat) (os : List InitOracle)
    (sdata : List Nat) (ts : Nat) : StepOut :=
  if sdata.length < 1 then ⟨c, os, [], false, none⟩
  else
    let keyframe := vp8IsKeyframe sdata
    if keyframe = true then
      match vp8Dims sdata with
      | none =>
        let c1 := setLastKf c i ts
        let w := writeSample c1 i true sdata ts
        ⟨w.1, os, w.2, false, none⟩
      | some dims =>
        let o := os.headD ⟨false, none⟩
        let r := connInitWriter o c dims.1 dims.2
        match r.2 with
        | some e => ⟨r.1, os.tail, [Event.init dims.1 dims.2], false, some e⟩
        | none =>
          let c1 := setLastKf r.1 i ts
          let w := writeSample c1 i true sdata ts
          ⟨w.1, os.tail, Event.init dims.1 dims.2 :: w.2, false, none⟩
    else
      let kfn :=
        if trackWriter c i = true then
          let delta := (ts + 2 ^ 32 - lastKfOf c i % 2 ^ 32) % 2 ^ 32
          decide (delta &&& 0x80000000 = 0 ∧ 10 * 90000 < delta)
        else false
      let w := writeSample c i false sdata ts
      ⟨w.1, os, w.2, kfn, none⟩

/-- One iteration of the `WriteRTP` drain loop for a non-VP8 (audio) track:
the `default` arm of the codec switch.  When the track has no writer and the
connection has no video track at all, `diskConn.initWriter(0, 0)` runs
(audio-only recording); `keyframe` keeps its initial value `true`; then the
shared write tail runs. -/
def audioSampleStep (c : DiskConn) (i : Nat) (os : List InitOracle)
    (sdata : List Nat) (ts : Nat) : StepOut :=
  if trackWriter c i = false ∧ c.hasVideo = false then
    let o := os.headD ⟨false, none⟩
    let r := connInitWriter o c 0 0
    match r.2 with
    | some e => ⟨r.1, os.tail, [Event.init 0 0], false, some e⟩
    | none =>
      let w := writeSample r.1 i true sdata ts
      ⟨w.1, os.tail, Event.init 0 0 :: w.2, false, none⟩
  else
    let w := writeSample c i true sdata ts
    ⟨w.1, os, w.2, false, none⟩

/-- Fold of `vp8SampleStep` over the sequence of samples drained from the
builder of a video track, collecting the emitted events. -/
def processVideoSamples (i : Nat) :
    DiskConn → List InitOracle → List (List Nat × Nat) → DiskConn × List Event
  | c, _, [] => (c, [])
  | c, os, p :: rest =>
    let r := vp8SampleStep c i os p.1 p.2
    let q := processVideoSamples i r.conn r.oracles rest
    (q.1, r.events ++ q.2)

/-- A drained sample that is classified as a keyframe and whose payload is
long enough (10 bytes) for the resolution header to be parsed: the only kind
of sample that makes `diskTrack.initWriter` reach `diskConn.initWriter`. -/
def vp8QualKeyframe (data : List Nat) : Prop :=
  vp8IsKeyframe data = true ∧ 10 ≤ data.length

instance (data : List Nat) : Decidable (vp8QualKeyframe data) := by
  unfold vp8QualKeyframe; infer_instance

/-- The candidate file name tried by `openDiskFile` for a given counter:
`"%v.webm"` for counter 0, `"%v-%02d.webm"` (two-digit zero-padded counter)
afterwards.  `base` is the timestamp-derived name, label included. -/
def candidateName (base : String) (counter : Nat) : String :=
  if counter = 0 then base ++ ".webm"
  else base ++ "-" ++ (if counter < 10 then "0" ++ toString counter else toString counter)
    ++ ".webm"

/-- Outcome of one `os.OpenFile(fn, O_WRONLY|O_CREATE|O_EXCL, 0600)` call:
success, failure because the name exists (`os.IsExist`), or another error. -/
inductive OpenResult where
  | ok
  | alreadyExists
  | ioError (msg : String)
deriving DecidableEq, Repr

/-- The loop of Go `openDiskFile`: `for counter := 0; counter < 100; counter++`
tries the candidate names in order with exclusive create semantics.  A
non-`IsExist` error aborts with that error; exhausting the 100 candidates
yields `errors.New("couldn't create file")`.  `fuel` counts the remaining
iterations (100 at the top-level entry). -/
def openDiskFileAux (openFile : String → OpenResult) (base : String) :
    Nat → Nat → Except String String
  | _, 0 => Except.error ("couldn\x27t create file")
  | counter, fuel + 1 =>
    let fn := candidateName base counter
    match openFile fn with
    | OpenResult.ok => Except.ok fn
    | OpenResult.alreadyExists => openDiskFileAux openFile base (counter + 1) fuel
    | OpenResult.ioError e => Except.error e

/-- Go `openDiskFile(directory, label)`, abstracted over the filesystem via
the `openFile` oracle; returns the name successfully created. -/
def openDiskFile (openFile : String → OpenResult) (base : String) :
    Except String String :=
  openDiskFileAux openFile base 0 100

/-- A filesystem holding a fixed set of already-occupied names and nothing
else that can fail: exclusive create succeeds exactly on unoccupied names. -/
def occupiedOracle (occ : String → Bool) : String → OpenResult :=
  fun fn => if occ fn = true then OpenResult.alreadyExists else OpenResult.ok

/-- A freshly constructed `diskTrack` (zero-valued `writer`, `origin`,
`lastKf`), as built by `newDiskConn` before `remote.AddLocal(track)`. -/
def newTrack (d : CodecDesc) : DiskTrack :=
  { remote := d, writer := false, origin := 0, lastKf := 0 }

/-- The track-construction loop of Go `newDiskConn`, over the remote tracks'
codec descriptors, threading `conn.hasVideo`.  Returns the `diskTrack`s
appended to the connection (each of which had `remote.AddLocal(track)`
called) before the loop ended, the final `hasVideo`, and the error: a second
`video/vp8` descriptor makes the constructor return
`errors.New("multiple video tracks not supported")` immediately; an
unsupported codec is reported via `WallOps` and skipped (`continue`). -/
def newDiskConnLoop : Bool → List CodecDesc → List DiskTrack × Bool × Option String
  | hv, [] => ([], hv, none)
  | hv, d :: rest =>
    match d.mimeType with
    | Codec.opus =>
      let r := newDiskConnLoop hv rest
      (newTrack d :: r.1, r.2)
    | Codec.vp8 =>
      if hv = true then ([], hv, some ("multiple video tracks not supported"))
      else
        let r := newDiskConnLoop true rest
        (newTrack d :: r.1, r.2)
    | Codec.other _ => newDiskConnLoop hv rest

/-- Go `newDiskConn(client, directory, label, up, remoteTracks)`: builds the
connection with zero-valued `file`, `width`, `height`, `lastWarning`, and the
tracks produced by the loop.  The second component is the returned error
(the Go function then returns a nil connection, but the tracks constructed
before the failure were already attached to their remotes). -/
def newDiskConn (descs : List CodecDesc) : DiskConn × Option String :=
  let r := newDiskConnLoop false descs
  ({ hasVideo := r.2.1, file := false, tracks := r.1,
     width := 0, height := 0, lastWarning := 0 }, r.2.2)

/-- Number of video (`video/vp8`) tracks among the constructed `diskTrack`s. -/
def countVideoTracks (ts : List DiskTrack) : Nat :=
  ts.countP (fun t => decide (t.remote.mimeType = Codec.vp8))

/-- Number of `video/vp8` descriptors in a remote track list. -/
def countVideoDescs (ds : List CodecDesc) : Nat :=
  ds.countP (fun d => decide (d.mimeType = Codec.vp8))

/-- Go struct `Client` (the recording client): the map from producer
connection id to `diskConn` (modelled as an association list) and the
`closed` flag.  The `group` and `id` identity fields are omitted; group
membership of a `PushConn` call is the `sameGroup` argument below. -/
structure Client where
  down : List (String × DiskConn)
  closed : Bool
deriving DecidableEq, Repr

/-- Go `Client.Close`: calls `down.Close()` on every connection recorder held,
then sets `down = nil` and `closed = true`.  Returns the updated client and
the connections as closed (each in its post-`diskConn.Close` state). -/
def clientClose (cl : Client) : Client × List DiskConn :=
  ({ down := [], closed := true }, cl.down.map (fun p => connClose p.2))

/-- Go `Client.Kick`: calls `Close` (then `group.DelClient`, an external
effect) and propagates its result. -/
def clientKick (cl : Client) : Client × List DiskConn :=
  clientClose cl

/-- Go `Client.PushConn(g, id, up, tracks, label)`: a group mismatch is a
silent no-op; a closed client returns `errors.New("disk client is closed")`;
otherwise any previous recorder under `id` is closed and removed, a nil `up`
stops there, and else the target directory is created (`mkdirOk` oracle),
`newDiskConn` runs, and on success the new recorder is stored under
`up.Id()`. -/
def clientPushConn (cl : Client) (sameGroup : Bool) (id : String)
    (upId : String) (up : Option (List CodecDesc)) (mkdirOk : Bool) :
    Client × Option String :=
  if sameGroup = false then (cl, none)
  else if cl.closed = true then (cl, some ("disk client is closed"))
  else
    let cl1 : Client := { cl with down := cl.down.filter (fun p => p.1 ≠ id) }
    match up with
    | none => (cl1, none)
    | some descs =>
      if mkdirOk = false then (cl1, some ("mkdir error"))
      else
        let r := newDiskConn descs
        match r.2 with
        | some e => (cl1, some e)
        | none => ({ cl1 with down := (upId, r.1) :: cl1.down }, none)

/-- The 32-bit little-endian value formed from payload bytes 6 through 9, as
the spec words it (the reference value for `vp8Dims`). -/
def le32 (data : List Nat) : Nat :=
  data.getD 6 0 + 256 * data.getD 7 0 + 65536 * data.getD 8 0 +
    16777216 * data.getD 9 0

/-! Shared concrete fixtures used by witnesses and counterexamples. -/

/-- A VP8 remote codec descriptor (90 kHz video clock). -/
def vp8Desc : CodecDesc := ⟨Codec.vp8, 90000, 0⟩

/-- An Opus remote codec descriptor (48 kHz, stereo). -/
def opusDesc : CodecDesc := ⟨Codec.opus, 48000, 2⟩

/-- A fresh connection with one Opus and one VP8 track, no file, no writers. -/
def sampleConn : DiskConn :=
  { hasVideo := true, file := false, tracks := [newTrack opusDesc, newTrack vp8Desc],
    width := 0, height := 0, lastWarning := 0 }

/-- `sampleConn` after a successful 640×480 initialization. -/
def sampleConnInit : DiskConn :=
  { hasVideo := true, file := true,
    tracks := [{ newTrack opusDesc with writer := true },
               { newTrack vp8Desc with writer := true }],
    width := 640, height := 480, lastWarning := 0 }

/-- A 10-byte VP8 keyframe payload whose header encodes 640×480. -/
def keyframe640 : List Nat := [0, 0, 0, 0, 0, 0, 0x80, 0x02, 0xE0, 0x01]

/-- Two drained samples, neither a parseable keyframe: a delta frame and a
keyframe payload shorter than the 10-byte header. -/
def nonKfSamples : List (List Nat × Nat) := [([3, 1, 2], 0), ([2, 0, 0], 90)]

/-- A disk state in which the unsuffixed candidate and the `-01` candidate for
base name `b` are already taken. -/
def occTwo : String → Bool := fun s => s == "b.webm" || s == "b-01.webm"

/-- A recording client holding one connection recorder. -/
def sampleClient : Client := { down := [("a", sampleConnInit)], closed := false }

/-- A closed recording client. -/
def closedClient : Client := { down := [], closed := true }

/-! Helper lemmas. -/

/-- Bit-or of values occupying disjoint bit ranges is addition. -/
theorem lor_shiftLeft_eq_add (a b k : Nat) (h : a < 2 ^ k) :
    a ||| b <<< k = b * 2 ^ k + a := by
  rw [Nat.shiftLeft_eq, Nat.or_comm, Nat.mul_comm b]
  exact (Nat.mul_add_lt_is_or h b).symm

theorem modifyNth_getElem? (f : DiskTrack → DiskTrack) :
    ∀ (n : Nat) (l : List DiskTrack) (i : Nat),
      (modifyNth f n l)[i]? = if i = n then (l[i]?).map f else l[i]?
  | _, [], i => by simp [modifyNth]
  | 0, t :: ts, 0 => by simp [modifyNth]
  | 0, t :: ts, i + 1 => by simp [modifyNth]
  | n + 1, t :: ts, 0 => by simp [modifyNth]
  | n + 1, t :: ts, i + 1 => by
    simp [modifyNth, modifyNth_getElem? f n ts i]

theorem mem_modifyNth (f : DiskTrack → DiskTrack) :
    ∀ (n : Nat) (l : List DiskTrack) (t : DiskTrack),
      t ∈ modifyNth f n l → t ∈ l ∨ ∃ u ∈ l, t = f u
  | _, [], t => by simp [modifyNth]
  | 0, u :: ts, t => by
    intro ht
    rw [modifyNth, List.mem_cons] at ht
    rcases ht with rfl | ht
    · exact Or.inr ⟨u, List.mem_cons_self u ts, rfl⟩
    · exact Or.inl (List.mem_cons_of_mem u ht)
  | n + 1, u :: ts, t => by
    intro ht
    rw [modifyNth, List.mem_cons] at ht
    rcases ht with rfl | ht
    · exact Or.inl (List.mem_cons_self t ts)
    · rcases mem_modifyNth f n ts t ht with h | ⟨v, hv, rfl⟩
      · exact Or.inl (List.mem_cons_of_mem u h)
      · exact Or.inr ⟨v, List.mem_cons_of_mem u hv, rfl⟩

theorem trackWriter_modify (f : DiskTrack → DiskTrack)
    (hf : ∀ x, (f x).writer = x.writer) (c : DiskConn) (i j : Nat) :
    trackWriter { c with tracks := modifyNth f i c.tracks } j = trackWriter c j := by
  simp only [trackWriter, modifyNth_getElem?]
  rcases Decidable.em (j = i) with h | h
  · simp only [if_pos h]
    cases c.tracks[j]? <;> simp [hf]
  · simp [if_neg h]

theorem trackWriter_setLastKf (c : DiskConn) (i j : Nat) (ts : Nat) :
    trackWriter (setLastKf c i ts) j = trackWriter c j := by
  unfold setLastKf
  exact trackWriter_modify (fun t => { t with lastKf := ts }) (fun x => rfl) c i j

theorem writeSample_no_writer (c : DiskConn) (i : Nat) (kf : Bool)
    (s : List Nat) (ts : Nat) (h : trackWriter c i = false) :
    writeSample c i kf s ts = (c, []) := by
  unfold writeSample
  unfold trackWriter at h
  cases hh : c.tracks[i]? with
  | none => rfl
  | some t =>
    rw [hh] at h
    simp at h
    simp [h]

theorem rebaseStep_first (cr ts : Nat) (h : ts < 2 ^ 32) :
    rebaseStep cr 0 ts = (2 ^ 32 + ts, 0) := by
  have h1 : ts ||| 1 <<< 32 = 2 ^ 32 + ts := by
    rw [lor_shiftLeft_eq_add ts 1 32 h, Nat.one_mul]
  have h2 : (ts + 2 ^ 32 - (2 ^ 32 + ts) % 2 ^ 32) % 2 ^ 32 = 0 := by omega
  simp only [rebaseStep, reduceIte, h1, h2, Nat.zero_div]

theorem rebaseStep_subsequent (cr origin ts : Nat) (h : origin ≠ 0) :
    rebaseStep cr origin ts =
      (origin, (ts + 2 ^ 32 - origin % 2 ^ 32) % 2 ^ 32 / (cr / 1000)) := by
  simp only [rebaseStep, if_neg h]

theorem trackWriter_writeSample (c : DiskConn) (i : Nat) (kf : Bool)
    (s : List Nat) (ts : Nat) (j : Nat) :
    trackWriter (writeSample c i kf s ts).1 j = trackWriter c j := by
  unfold writeSample
  cases hh : c.tracks[i]? with
  | none => rfl
  | some t =>
    cases ht : t.writer with
    | false => simp [ht]
    | true =>
      simp only [ht, Bool.true_eq_false, if_false]
      exact trackWriter_modify
        (fun u => { u with origin := (rebaseStep t.remote.clockRate t.origin ts).1 })
        (fun x => rfl) c i j

/-- C3: for a track with a writer, the first sample ever written is written at
container timestamp 0 and its 32-bit timestamp is recorded as the origin with
the validity bit (bit 32) set; every subsequent sample whose 32-bit timestamp
is `d` greater than the origin's anchor in wrapping uint32 arithmetic is
written at `floor(d / (clockRate / 1000))` milliseconds, including across
32-bit wraparound. -/
theorem c3_timestamp_rebasing :
    (∀ (c : DiskConn) (i : Nat) (kf : Bool) (s : List Nat) (ts : Nat) (t : DiskTrack),
      c.tracks[i]? = some t → t.writer = true → t.origin = 0 → ts < 2 ^ 32 →
      (writeSample c i kf s ts).2 = [Event.write kf 0 s] ∧
      ((writeSample c i kf s ts).1.tracks[i]?).map DiskTrack.origin =
        some (2 ^ 32 + ts)) ∧
    (∀ (cr origin ts d : Nat), origin ≠ 0 → ts < 2 ^ 32 → d < 2 ^ 32 →
      ts = (origin % 2 ^ 32 + d) % 2 ^ 32 →
      (rebaseStep cr origin ts).2 = d / (cr / 1000) ∧
      (rebaseStep cr origin ts).1 = origin) := by
  constructor
  · intro c i kf s ts t htr hw ho hts
    unfold writeSample
    rw [htr]
    simp only [hw, Bool.true_eq_false, if_false, ho, rebaseStep_first _ ts hts]
    refine ⟨trivial, ?_⟩
    simp [modifyNth_getElem?, htr]
  · intro cr origin ts d h1 h2 h3 h4
    have h5 : (ts + 4294967296 - origin % 4294967296) % 4294967296 = d := by omega
    simp [rebaseStep_subsequent cr origin ts h1, h5]

/-- Witness for C3: a first write at 90 kHz (timestamp 1000 maps to block
time 0, origin becomes `2^32 + 1000`), and a wraparound rebase (anchor
`2^32 - 100`, delta 90100 maps to 1001 ms). -/
theorem c3_timestamp_rebasing_witness :
    (sampleConnInit.tracks[1]? = some { newTrack vp8Desc with writer := true } ∧
     (writeSample sampleConnInit 1 true keyframe640 1000).2 =
       [Event.write true 0 keyframe640] ∧
     ((writeSample sampleConnInit 1 true keyframe640 1000).1.tracks[1]?).map
       DiskTrack.origin = some (2 ^ 32 + 1000)) ∧
    ((8589934492 : Nat) ≠ 0 ∧
     (rebaseStep 90000 8589934492 90000).2 = 90100 / (90000 / 1000)) := by
  constructor
  · exact ⟨by decide,
      c3_timestamp_rebasing.1 sampleConnInit 1 true keyframe640 1000
        { newTrack vp8Desc with writer := true }
        (by decide) (by decide) (by decide) (by norm_num)⟩
  · exact ⟨by norm_num,
      (c3_timestamp_rebasing.2 90000 8589934492 90000 90100
        (by norm_num) (by norm_num) (by norm_num) (by decide)).1⟩

/-- C10: the origin is recorded at most once: after the first written sample
the origin field equals the 32-bit anchor with bit 32 set, hence is nonzero
even when the anchor timestamp is 0, and a nonzero origin is never changed
by a later rebase, so all later samples use the same anchor. -/
theorem c10_origin_recorded_once :
    (∀ cr ts : Nat, ts < 2 ^ 32 →
      (rebaseStep cr 0 ts).1 = 2 ^ 32 + ts ∧ (rebaseStep cr 0 ts).1 ≠ 0) ∧
    (∀ cr origin ts : Nat, origin ≠ 0 → (rebaseStep cr origin ts).1 = origin) := by
  constructor
  · intro cr ts h
    rw [rebaseStep_first cr ts h]
    exact ⟨rfl, by omega⟩
  · intro cr origin ts h
    rw [rebaseStep_subsequent cr origin ts h]

/-- Witness for C10: a first sample with timestamp 0 still yields a nonzero
origin (`2^32`), and a stored origin survives the next sample. -/
theorem c10_origin_recorded_once_witness :
    ((0 : Nat) < 2 ^ 32 ∧ (rebaseStep 90000 0 0).1 = 2 ^ 32 + 0 ∧
      (rebaseStep 90000 0 0).1 ≠ 0) ∧
    ((4294968296 : Nat) ≠ 0 ∧ (rebaseStep 90000 4294968296 777).1 = 4294968296) :=
  ⟨⟨by norm_num, c10_origin_recorded_once.1 90000 0 (by norm_num)⟩,
   ⟨by norm_num, c10_origin_recorded_once.2 90000 4294968296 777 (by norm_num)⟩⟩

/-- C8: a `warn` call emits a notification exactly when at least 10 seconds
have elapsed since the last emitted (not suppressed) warning — `lastWarning`
is updated only on emission; in the concrete pattern, five failures within
10 seconds emit exactly one notification and a sixth after the window emits
a new one. -/
theorem c8_warning_rate_limit :
    (∀ (c : DiskConn) (now : Int),
      ((connWarn c now).2 = true ↔ 10 * 1000000000 ≤ now - c.lastWarning) ∧
      (connWarn c now).1.lastWarning =
        (if (connWarn c now).2 = true then now else c.lastWarning)) ∧
    (∀ (c : DiskConn) (t0 t1 t2 t3 t4 t5 : Int),
      10 * 1000000000 ≤ t0 - c.lastWarning →
      t1 - t0 < 10 * 1000000000 → t2 - t0 < 10 * 1000000000 →
      t3 - t0 < 10 * 1000000000 → t4 - t0 < 10 * 1000000000 →
      10 * 1000000000 ≤ t5 - t0 →
      connWarnTrace c [t0, t1, t2, t3, t4, t5] =
        [true, false, false, false, false, true]) := by
  constructor
  · intro c now
    unfold connWarn
    rcases Decidable.em (now - c.lastWarning < 10 * 1000000000) with h | h
    · simp only [if_pos h]
      constructor
      · simp only [Bool.false_eq_true, false_iff]
        omega
      · rfl
    · simp only [if_neg h]
      constructor
      · simp only [true_iff]
        omega
      · rfl
  · intro c t0 t1 t2 t3 t4 t5 h0 h1 h2 h3 h4 h5
    have e0 : ¬(t0 - c.lastWarning < 10000000000) := by omega
    have f1 : t1 - t0 < 10000000000 := by omega
    have f2 : t2 - t0 < 10000000000 := by omega
    have f3 : t3 - t0 < 10000000000 := by omega
    have f4 : t4 - t0 < 10000000000 := by omega
    have e5 : ¬(t5 - t0 < 10000000000) := by omega
    simp [connWarnTrace, connWarn, e0, f1, f2, f3, f4, e5]

/-- Witness for C8: warnings at 10s, four more within the window, one at 20s:
the trace emits exactly at the first and the last call. -/
theorem c8_warning_rate_limit_witness :
    ((connWarn sampleConn 10000000000).2 = true ↔
      10 * 1000000000 ≤ 10000000000 - sampleConn.lastWarning) ∧
    (10 * 1000000000 ≤ 10000000000 - sampleConn.lastWarning ∧
     connWarnTrace sampleConn
       [10000000000, 10000000001, 12000000000, 15000000000, 19999999999,
        20000000000] = [true, false, false, false, false, true]) := by
  constructor
  · exact (c8_warning_rate_limit.1 sampleConn 10000000000).1
  · exact ⟨by decide,
      c8_warning_rate_limit.2 sampleConn 10000000000 10000000001 12000000000
        15000000000 19999999999 20000000000 (by decide) (by decide) (by decide)
        (by decide) (by decide) (by decide)⟩

theorem getD_lt (data : List Nat) (k : Nat) (hk : k < data.length)
    (hb : ∀ x ∈ data, x < 256) : data.getD k 0 < 256 := by
  have hm := hb (data[k]) (List.getElem_mem hk)
  simp only [List.getD_eq_getElem?_getD, List.getElem?_eq_getElem hk,
    Option.getD_some]
  exact hm

theorem vp8Dims_spec (data : List Nat) (hlen : 10 ≤ data.length)
    (hb : ∀ x ∈ data, x < 256) (hkf : vp8IsKeyframe data = true) :
    vp8Dims data = some (le32 data % 16384, le32 data / 65536 % 16384) := by
  have h6 : data.getD 6 0 < 256 := getD_lt data 6 (by omega) hb
  have h7 : data.getD 7 0 < 256 := getD_lt data 7 (by omega) hb
  have h8 : data.getD 8 0 < 256 := getD_lt data 8 (by omega) hb
  have h9 : data.getD 9 0 < 256 := getD_lt data 9 (by omega) hb
  have hraw :
      data.getD 6 0 ||| data.getD 7 0 <<< 8 ||| data.getD 8 0 <<< 16 |||
        data.getD 9 0 <<< 24 = le32 data := by
    rw [lor_shiftLeft_eq_add (data.getD 6 0) (data.getD 7 0) 8 (by omega)]
    rw [lor_shiftLeft_eq_add _ (data.getD 8 0) 16 (by omega)]
    rw [lor_shiftLeft_eq_add _ (data.getD 9 0) 24 (by omega)]
    unfold le32
    omega
  have w1 : le32 data &&& 16383 = le32 data % 16384 := by
    have e : (16383 : Nat) = 2 ^ 14 - 1 := by norm_num
    rw [e, Nat.and_pow_two_sub_one_eq_mod]
  have w2 : le32 data >>> 16 &&& 16383 = le32 data / 65536 % 16384 := by
    have e : (16383 : Nat) = 2 ^ 14 - 1 := by norm_num
    rw [Nat.shiftRight_eq_div_pow, e, Nat.and_pow_two_sub_one_eq_mod]
  simp only [vp8Dims]
  rw [if_neg (show ¬ data.length < 10 by omega)]
  rw [if_neg (show ¬ (vp8IsKeyframe data = false) by simp [hkf])]
  rw [hraw, w1, w2]

/-- C5: a drained VP8 sample with non-empty payload is a keyframe exactly when
the low bit of its first payload byte is clear; for a keyframe payload of at
least 10 bytes, the parsed width is the low 14 bits and the parsed height is
bits 16..29 of the 32-bit little-endian value of payload bytes 6–9, and
these dimensions are the ones passed to connection (re)initialization. -/
theorem c5_keyframe_and_dimensions :
    (∀ (b : Nat) (rest : List Nat),
      vp8IsKeyframe (b :: rest) = true ↔ b % 2 = 0) ∧
    (∀ data : List Nat, 10 ≤ data.length → (∀ x ∈ data, x < 256) →
      vp8IsKeyframe data = true →
      vp8Dims data = some (le32 data % 16384, le32 data / 65536 % 16384)) ∧
    (∀ (c : DiskConn) (i : Nat) (os : List InitOracle) (data : List Nat) (ts : Nat),
      10 ≤ data.length → (∀ x ∈ data, x < 256) → vp8IsKeyframe data = true →
      (vp8SampleStep c i os data ts).events.head? =
        some (Event.init (le32 data % 16384) (le32 data / 65536 % 16384))) := by
  refine ⟨?_, fun data h1 h2 h3 => vp8Dims_spec data h1 h2 h3, ?_⟩
  · intro b rest
    simp [vp8IsKeyframe, Nat.and_one_is_mod]
  · intro c i os data ts hlen hb hkf
    have hd := vp8Dims_spec data hlen hb hkf
    simp only [vp8SampleStep]
    rw [if_neg (show ¬ data.length < 1 by omega)]
    simp only [hkf, reduceIte, hd]
    cases hr : (connInitWriter (os.headD ⟨false, none⟩) c (le32 data % 16384)
        (le32 data / 65536 % 16384)).2 with
    | none => simp [hr]
    | some e => simp [hr]

/-- Witness for C5: the canonical 640×480 keyframe payload: byte 0 has its low
bit clear, and the parsed dimensions (640, 480) reach `diskConn.initWriter`. -/
theorem c5_keyframe_and_dimensions_witness :
    (vp8IsKeyframe (0 :: [1, 2]) = true ↔ 0 % 2 = 0) ∧
    (10 ≤ keyframe640.length ∧ (∀ x ∈ keyframe640, x < 256) ∧
      vp8IsKeyframe keyframe640 = true ∧
      (vp8SampleStep sampleConn 1 [⟨true, some 2⟩] keyframe640 3000).events.head? =
        some (Event.init (le32 keyframe640 % 16384) (le32 keyframe640 / 65536 % 16384))) := by
  constructor
  · exact c5_keyframe_and_dimensions.1 0 [1, 2]
  · exact ⟨by decide, by decide, by decide,
      c5_keyframe_and_dimensions.2.2 sampleConn 1 [⟨true, some 2⟩] keyframe640 3000
        (by decide) (by decide) (by decide)⟩

theorem writer_of_mem_map_set (l : List DiskTrack) (b : Bool) :
    ∀ t ∈ l.map (fun u => { u with writer := b }), t.writer = b := by
  intro t ht
  simp only [List.mem_map] at ht
  obtain ⟨u, _, rfl⟩ := ht
  rfl

/-- C4: `diskConn.initWriter` with a live file and unchanged dimensions is a
no-op success; a file-open failure, a muxer construction failure, or a
writer-count mismatch makes it return the error with no file and every
track's writer absent. -/
theorem c4_initWriter_noop_and_failure :
    (∀ (o : InitOracle) (c : DiskConn) (w h : Nat),
      c.file = true → w = c.width → h = c.height →
      connInitWriter o c w h = (c, none)) ∧
    (∀ (o : InitOracle) (c : DiskConn) (w h : Nat),
      ¬(c.file = true ∧ w = c.width ∧ h = c.height) →
      c.tracks.all (fun t => supportedCodec t.remote.mimeType) = true →
      (o.openOk = false ∨ o.muxWriters = none ∨
        ∃ n, o.muxWriters = some n ∧ n ≠ c.tracks.length) →
      (connInitWriter o c w h).2.isSome = true ∧
      (connInitWriter o c w h).1.file = false ∧
      ∀ t ∈ (connInitWriter o c w h).1.tracks, t.writer = false) := by
  constructor
  · intro o c w h h1 h2 h3
    unfold connInitWriter
    rw [if_pos ⟨h1, h2, h3⟩]
  · intro o c w h hno hsupp hfail
    simp only [connInitWriter, if_neg hno]
    rw [if_neg (by simp [hsupp])]
    rcases hfail with hopen | hmux | ⟨n, hmux, hn⟩
    · rw [if_pos hopen]
      exact ⟨rfl, rfl, writer_of_mem_map_set c.tracks false⟩
    · cases ho : o.openOk with
      | false =>
        rw [if_pos rfl]
        exact ⟨rfl, rfl, writer_of_mem_map_set c.tracks false⟩
      | true =>
        rw [if_neg (by simp [ho]), hmux]
        exact ⟨rfl, rfl, writer_of_mem_map_set c.tracks false⟩
    · cases ho : o.openOk with
      | false =>
        rw [if_pos rfl]
        exact ⟨rfl, rfl, writer_of_mem_map_set c.tracks false⟩
      | true =>
        rw [if_neg (by simp [ho]), hmux]
        dsimp only
        rw [if_pos (by simpa using hn)]
        exact ⟨rfl, rfl, writer_of_mem_map_set c.tracks false⟩

/-- Witness for C4: the no-op on an initialized 640×480 connection, and the
writer-count-mismatch failure (1 writer for 2 tracks) on a fresh one. -/
theorem c4_initWriter_noop_and_failure_witness :
    (sampleConnInit.file = true ∧
     connInitWriter ⟨true, some 2⟩ sampleConnInit 640 480 = (sampleConnInit, none)) ∧
    (¬(sampleConn.file = true ∧ 640 = sampleConn.width ∧ 480 = sampleConn.height) ∧
     (connInitWriter ⟨true, some 1⟩ sampleConn 640 480).2.isSome = true ∧
     (connInitWriter ⟨true, some 1⟩ sampleConn 640 480).1.file = false ∧
     ∀ t ∈ (connInitWriter ⟨true, some 1⟩ sampleConn 640 480).1.tracks,
       t.writer = false) := by
  constructor
  · exact ⟨by decide,
      c4_initWriter_noop_and_failure.1 ⟨true, some 2⟩ sampleConnInit 640 480
        (by decide) (by decide) (by decide)⟩
  · exact ⟨by decide,
      c4_initWriter_noop_and_failure.2 ⟨true, some 1⟩ sampleConn 640 480
        (by decide) (by decide) (Or.inr (Or.inr ⟨1, rfl, by decide⟩))⟩

theorem connInv_modify (f : DiskTrack → DiskTrack)
    (hf : ∀ x, (f x).writer = x.writer) (c : DiskConn) (i : Nat)
    (hc : connInv c) : connInv { c with tracks := modifyNth f i c.tracks } := by
  rcases hc with ⟨hfile, hall⟩ | ⟨hfile, hall⟩
  · refine Or.inl ⟨hfile, ?_⟩
    intro t ht
    rcases mem_modifyNth f i c.tracks t ht with h | ⟨u, hu, rfl⟩
    · exact hall t h
    · rw [hf]
      exact hall u hu
  · refine Or.inr ⟨hfile, ?_⟩
    intro t ht
    rcases mem_modifyNth f i c.tracks t ht with h | ⟨u, hu, rfl⟩
    · exact hall t h
    · rw [hf]
      exact hall u hu

theorem connInv_setLastKf (c : DiskConn) (i ts : Nat) (hc : connInv c) :
    connInv (setLastKf c i ts) :=
  connInv_modify (fun t => { t with lastKf := ts }) (fun x => rfl) c i hc

theorem connInv_writeSample (c : DiskConn) (i : Nat) (kf : Bool)
    (s : List Nat) (ts : Nat) (hc : connInv c) :
    connInv (writeSample c i kf s ts).1 := by
  unfold writeSample
  cases hh : c.tracks[i]? with
  | none => exact hc
  | some t =>
    cases ht : t.writer with
    | false => simpa [ht] using hc
    | true =>
      simp only [ht, Bool.true_eq_false, if_false]
      exact connInv_modify
        (fun u => { u with origin := (rebaseStep t.remote.clockRate t.origin ts).1 })
        (fun x => rfl) c i hc

theorem connInv_initWriter (o : InitOracle) (c : DiskConn) (w h : Nat)
    (hc : connInv c) : connInv (connInitWriter o c w h).1 := by
  simp only [connInitWriter]
  split
  · exact hc
  · split
    · exact hc
    · split
      · exact Or.inr ⟨rfl, writer_of_mem_map_set c.tracks false⟩
      · split
        · exact Or.inr ⟨rfl, writer_of_mem_map_set c.tracks false⟩
        · split
          · exact Or.inr ⟨rfl, writer_of_mem_map_set c.tracks false⟩
          · exact Or.inl ⟨rfl,
              writer_of_mem_map_set
                (c.tracks.map (fun u => { u with writer := false })) true⟩

theorem connInv_vp8Step (c : DiskConn) (i : Nat) (os : List InitOracle)
    (s : List Nat) (ts : Nat) (hc : connInv c) :
    connInv (vp8SampleStep c i os s ts).conn := by
  simp only [vp8SampleStep]
  split
  · exact hc
  · split
    · split
      · exact connInv_writeSample _ i true s ts (connInv_setLastKf c i ts hc)
      · split
        · exact connInv_initWriter _ c _ _ hc
        · exact connInv_writeSample _ i true s ts
            (connInv_setLastKf _ i ts (connInv_initWriter _ c _ _ hc))
    · exact connInv_writeSample c i false s ts hc

theorem connInv_audioStep (c : DiskConn) (i : Nat) (os : List InitOracle)
    (s : List Nat) (ts : Nat) (hc : connInv c) :
    connInv (audioSampleStep c i os s ts).conn := by
  simp only [audioSampleStep]
  split
  · split
    · exact connInv_initWriter _ c 0 0 hc
    · exact connInv_writeSample _ i true s ts (connInv_initWriter _ c 0 0 hc)
  · exact connInv_writeSample c i true s ts hc

/-- C1 counterexample: the claim includes `Close` among the operations that
preserve the all-or-nothing invariant, but `diskConn.Close` clears every track
writer and leaves `conn.file` set, so closing an initialized connection
produces a state with a file and no writers. -/
theorem c1_close_counterexample :
    connInv sampleConnInit ∧ ¬ connInv (connClose sampleConnInit) := by decide

/-- C1 amended: writer (re)initialization and per-sample packet processing
preserve the all-or-nothing invariant, but `Close` only clears the per-track
writers and leaves the file handle field unchanged, so after closing an
initialized connection the file is present while every writer is absent. -/
theorem c1_invariant_amended :
    (∀ (o : InitOracle) (c : DiskConn) (w h : Nat),
      connInv c → connInv (connInitWriter o c w h).1) ∧
    (∀ (c : DiskConn) (i : Nat) (os : List InitOracle) (s : List Nat) (ts : Nat),
      connInv c → connInv (vp8SampleStep c i os s ts).conn) ∧
    (∀ (c : DiskConn) (i : Nat) (os : List InitOracle) (s : List Nat) (ts : Nat),
      connInv c → connInv (audioSampleStep c i os s ts).conn) ∧
    (∀ c : DiskConn, (connClose c).file = c.file ∧
      ∀ t ∈ (connClose c).tracks, t.writer = false) :=
  ⟨connInv_initWriter,
   connInv_vp8Step,
   connInv_audioStep,
   fun c => ⟨rfl, writer_of_mem_map_set c.tracks false⟩⟩

/-- Witness for C1 (amended): a successful 640×480 initialization from the
fresh two-track connection preserves the invariant, and closing the
initialized connection leaves the file flag set with all writers cleared. -/
theorem c1_invariant_amended_witness :
    (connInv sampleConn ∧
      connInv (connInitWriter ⟨true, some 2⟩ sampleConn 640 480).1) ∧
    (connInv sampleConn ∧
      connInv (vp8SampleStep sampleConn 1 [⟨true, some 2⟩] keyframe640 3000).conn) ∧
    ((connClose sampleConnInit).file = sampleConnInit.file ∧
      ∀ t ∈ (connClose sampleConnInit).tracks, t.writer = false) :=
  ⟨⟨by decide, c1_invariant_amended.1 ⟨true, some 2⟩ sampleConn 640 480 (by decide)⟩,
   ⟨by decide, c1_invariant_amended.2.1 sampleConn 1 [⟨true, some 2⟩] keyframe640 3000
      (by decide)⟩,
   c1_invariant_amended.2.2.2 sampleConnInit⟩

theorem vp8Dims_none_of_short (s : List Nat) (h : s.length < 10) :
    vp8Dims s = none := by
  unfold vp8Dims
  rw [if_pos h]

theorem vp8Step_no_qual (c : DiskConn) (i : Nat) (os : List InitOracle)
    (s : List Nat) (ts : Nat) (hw : trackWriter c i = false)
    (hq : ¬ vp8QualKeyframe s) :
    (vp8SampleStep c i os s ts).events = [] ∧
    trackWriter (vp8SampleStep c i os s ts).conn i = false := by
  simp only [vp8SampleStep]
  split
  · exact ⟨rfl, hw⟩
  · split
    · rename_i hkf
      have hlen10 : s.length < 10 := by
        by_contra hh
        exact hq ⟨hkf, by omega⟩
      rw [vp8Dims_none_of_short s hlen10]
      have hw1 : trackWriter (setLastKf c i ts) i = false := by
        rw [trackWriter_setLastKf]
        exact hw
      dsimp only
      rw [writeSample_no_writer _ i true s ts hw1]
      exact ⟨rfl, hw1⟩
    · rw [writeSample_no_writer c i false s ts hw]
      exact ⟨rfl, hw⟩

theorem processVideoSamples_no_qual (i : Nat) :
    ∀ (samples : List (List Nat × Nat)) (c : DiskConn) (os : List InitOracle),
      trackWriter c i = false →
      (∀ p ∈ samples, ¬ vp8QualKeyframe p.1) →
      (processVideoSamples i c os samples).2 = [] ∧
      trackWriter (processVideoSamples i c os samples).1 i = false
  | [], c, os, hw, _ => ⟨rfl, hw⟩
  | p :: rest, c, os, hw, hq => by
    have hstep := vp8Step_no_qual c i os p.1 p.2 hw (hq p (List.mem_cons_self p rest))
    have hrest := processVideoSamples_no_qual i rest (vp8SampleStep c i os p.1 p.2).conn
      (vp8SampleStep c i os p.1 p.2).oracles hstep.2
      (fun q hqm => hq q (List.mem_cons_of_mem p hqm))
    simp only [processVideoSamples]
    refine ⟨?_, hrest.2⟩
    rw [hstep.1, hrest.1]
    rfl

theorem writeSample_events (c : DiskConn) (i : Nat) (kf : Bool)
    (s : List Nat) (ts : Nat) :
    (writeSample c i kf s ts).2 = [] ∨
    ∃ tm, (writeSample c i kf s ts).2 = [Event.write kf tm s] := by
  unfold writeSample
  cases hh : c.tracks[i]? with
  | none => exact Or.inl rfl
  | some t =>
    cases ht : t.writer with
    | false => simp [ht]
    | true =>
      simp only [ht, Bool.true_eq_false, if_false]
      exact Or.inr ⟨(rebaseStep t.remote.clockRate t.origin ts).2, rfl⟩

/-- C2: over any sequence of samples drained by a VP8 track recorder whose
writer is absent, as long as no drained sample is a keyframe with a parseable
(≥ 10 byte) header, nothing is passed to a container block writer and the
video track's writer stays absent; and on a connection that has a video
track, an audio track's processing never calls `diskConn.initWriter`, so the
keyframe path is the only creator of the video track's writer. -/
theorem c2_no_write_before_keyframe :
    (∀ (i : Nat) (c : DiskConn) (os : List InitOracle)
       (samples : List (List Nat × Nat)),
      trackWriter c i = false →
      (∀ p ∈ samples, ¬ vp8QualKeyframe p.1) →
      (processVideoSamples i c os samples).2 = [] ∧
      trackWriter (processVideoSamples i c os samples).1 i = false) ∧
    (∀ (c : DiskConn) (i : Nat) (os : List InitOracle) (s : List Nat) (ts : Nat),
      c.hasVideo = true →
      (∀ w h, Event.init w h ∉ (audioSampleStep c i os s ts).events) ∧
      ∀ j, trackWriter (audioSampleStep c i os s ts).conn j = trackWriter c j) := by
  constructor
  · intro i c os samples hw hq
    exact processVideoSamples_no_qual i samples c os hw hq
  · intro c i os s ts hv
    have hcond : ¬(trackWriter c i = false ∧ c.hasVideo = false) := by
      simp [hv]
    simp only [audioSampleStep, if_neg hcond]
    constructor
    · intro w h
      rcases writeSample_events c i true s ts with he | ⟨tm, he⟩ <;> simp [he]
    · intro j
      exact trackWriter_writeSample c i true s ts j

/-- Witness for C2: a delta frame and a short keyframe produce no events on a
writer-less video track, and an audio sample on a video-bearing connection
neither reinitializes nor touches any writer. -/
theorem c2_no_write_before_keyframe_witness :
    (trackWriter sampleConn 1 = false ∧
     (∀ p ∈ nonKfSamples, ¬ vp8QualKeyframe p.1) ∧
     (processVideoSamples 1 sampleConn [] nonKfSamples).2 = [] ∧
     trackWriter (processVideoSamples 1 sampleConn [] nonKfSamples).1 1 = false) ∧
    (sampleConn.hasVideo = true ∧
     (∀ w h, Event.init w h ∉ (audioSampleStep sampleConn 0 [] [5] 0).events) ∧
     ∀ j, trackWriter (audioSampleStep sampleConn 0 [] [5] 0).conn j =
       trackWriter sampleConn j) := by
  constructor
  · exact ⟨by decide, by decide,
      c2_no_write_before_keyframe.1 1 sampleConn [] nonKfSamples
        (by decide) (by decide)⟩
  · exact ⟨by decide,
      c2_no_write_before_keyframe.2 sampleConn 0 [] [5] 0 (by decide)⟩

theorem openDiskFileAux_ok (occ : String → Bool) (base : String) :
    ∀ (fuel counter k : Nat), k < fuel →
      (∀ j, j < k → occ (candidateName base (counter + j)) = true) →
      occ (candidateName base (counter + k)) = false →
      openDiskFileAux (occupiedOracle occ) base counter fuel =
        Except.ok (candidateName base (counter + k))
  | 0, counter, k, hk, _, _ => absurd hk (by omega)
  | fuel + 1, counter, k, hk, hprev, hfree => by
    simp only [openDiskFileAux, occupiedOracle]
    cases hocc : occ (candidateName base counter) with
    | false =>
      have hk0 : k = 0 := by
        by_contra hne
        have h0 := hprev 0 (by omega)
        rw [Nat.add_zero] at h0
        rw [h0] at hocc
        cases hocc
      subst hk0
      simp [hocc]
    | true =>
      cases k with
      | zero =>
        rw [Nat.add_zero] at hfree
        rw [hfree] at hocc
        cases hocc
      | succ n =>
        have hrec := openDiskFileAux_ok occ base fuel (counter + 1) n (by omega)
          (fun j hj => by
            have hp := hprev (j + 1) (by omega)
            rw [show counter + (j + 1) = counter + 1 + j by omega] at hp
            exact hp)
          (by
            rw [show counter + 1 + n = counter + (n + 1) by omega]
            exact hfree)
        simp only [hocc, if_pos rfl]
        rw [show counter + (n + 1) = counter + 1 + n by omega]
        exact hrec

theorem openDiskFileAux_error (occ : String → Bool) (base : String) :
    ∀ (fuel counter : Nat),
      (openDiskFileAux (occupiedOracle occ) base counter fuel =
        Except.error ("couldn\x27t create file")) ↔
      (∀ j, j < fuel → occ (candidateName base (counter + j)) = true)
  | 0, counter => by simp [openDiskFileAux]
  | fuel + 1, counter => by
    simp only [openDiskFileAux, occupiedOracle]
    cases hocc : occ (candidateName base counter) with
    | false =>
      simp only [Bool.false_eq_true, if_false]
      constructor
      · intro h
        cases h
      · intro h
        have h0 := h 0 (by omega)
        rw [Nat.add_zero] at h0
        rw [h0] at hocc
        cases hocc
    | true =>
      simp only [reduceIte]
      rw [openDiskFileAux_error occ base fuel (counter + 1)]
      constructor
      · intro h j hj
        cases j with
        | zero =>
          rw [Nat.add_zero]
          exact hocc
        | succ n =>
          have hp := h n (by omega)
          rw [show counter + 1 + n = counter + (n + 1) by omega] at hp
          exact hp
      · intro h j hj
        have hp := h (j + 1) (by omega)
        rw [show counter + (j + 1) = counter + 1 + j by omega] at hp
        exact hp

/-- C6: file allocation tries the base name, then two-digit counters 01–99,
in order, each with exclusive create semantics; the first unoccupied
candidate is returned, and the call fails with the "couldn't create file"
error exactly when all 100 candidates already exist. -/
theorem c6_file_allocation :
    (∀ (occ : String → Bool) (base : String) (k : Nat),
      k < 100 → (∀ j, j < k → occ (candidateName base j) = true) →
      occ (candidateName base k) = false →
      openDiskFile (occupiedOracle occ) base = Except.ok (candidateName base k)) ∧
    (∀ (occ : String → Bool) (base : String),
      openDiskFile (occupiedOracle occ) base =
        Except.error ("couldn\x27t create file") ↔
      ∀ j, j < 100 → occ (candidateName base j) = true) := by
  constructor
  · intro occ base k hk hprev hfree
    have h := openDiskFileAux_ok occ base 100 0 k hk
      (fun j hj => by simpa using hprev j hj)
      (by simpa using hfree)
    simpa [openDiskFile] using h
  · intro occ base
    have h := openDiskFileAux_error occ base 100 0
    simpa [openDiskFile] using h

/-- Witness for C6: with `b.webm` and `b-01.webm` taken, allocation returns
`b-02.webm`; with every candidate taken, it fails with the exhaustion error. -/
theorem c6_file_allocation_witness :
    ((2 : Nat) < 100 ∧ occTwo (candidateName "b" 2) = false ∧
     openDiskFile (occupiedOracle occTwo) "b" = Except.ok (candidateName "b" 2)) ∧
    openDiskFile (occupiedOracle (fun _ => true)) "b" =
      Except.error ("couldn\x27t create file") := by
  constructor
  · refine ⟨by omega, by decide, ?_⟩
    refine c6_file_allocation.1 occTwo "b" 2 (by omega) ?_ (by decide)
    intro j hj
    interval_cases j
    · decide
    · decide
  · exact (c6_file_allocation.2 (fun _ => true) "b").mpr (fun j hj => rfl)

theorem countVideoTracks_cons (t : DiskTrack) (l : List DiskTrack) :
    countVideoTracks (t :: l) =
      countVideoTracks l + (if t.remote.mimeType = Codec.vp8 then 1 else 0) := by
  simp [countVideoTracks, List.countP_cons]

theorem countVideoDescs_cons (d : CodecDesc) (l : List CodecDesc) :
    countVideoDescs (d :: l) =
      countVideoDescs l + (if d.mimeType = Codec.vp8 then 1 else 0) := by
  simp [countVideoDescs, List.countP_cons]

theorem loop_vcount_le_true :
    ∀ ds : List CodecDesc, countVideoTracks (newDiskConnLoop true ds).1 = 0
  | [] => by simp [newDiskConnLoop, countVideoTracks]
  | d :: rest => by
    cases hmt : d.mimeType with
    | opus =>
      simp only [newDiskConnLoop, hmt]
      rw [countVideoTracks_cons]
      have hne : ¬((newTrack d).remote.mimeType = Codec.vp8) := by
        show ¬(d.mimeType = Codec.vp8)
        rw [hmt]
        intro hco
        cases hco
      rw [if_neg hne]
      simpa using loop_vcount_le_true rest
    | vp8 =>
      simp [newDiskConnLoop, hmt, countVideoTracks]
    | other m =>
      simp only [newDiskConnLoop, hmt]
      exact loop_vcount_le_true rest

theorem loop_vcount_le_false :
    ∀ ds : List CodecDesc, countVideoTracks (newDiskConnLoop false ds).1 ≤ 1
  | [] => by simp [newDiskConnLoop, countVideoTracks]
  | d :: rest => by
    cases hmt : d.mimeType with
    | opus =>
      simp only [newDiskConnLoop, hmt]
      rw [countVideoTracks_cons]
      have hne : ¬((newTrack d).remote.mimeType = Codec.vp8) := by
        show ¬(d.mimeType = Codec.vp8)
        rw [hmt]
        intro hco
        cases hco
      rw [if_neg hne]
      simpa using loop_vcount_le_false rest
    | vp8 =>
      simp only [newDiskConnLoop, hmt, Bool.false_eq_true, if_false]
      rw [countVideoTracks_cons]
      have heq : (newTrack d).remote.mimeType = Codec.vp8 := hmt
      rw [if_pos heq, loop_vcount_le_true rest]
    | other m =>
      simp only [newDiskConnLoop, hmt]
      exact loop_vcount_le_false rest

theorem loop_fail_true :
    ∀ ds : List CodecDesc, 1 ≤ countVideoDescs ds →
      (newDiskConnLoop true ds).2.2 =
        some ("multiple video tracks not supported") ∧
      countVideoTracks (newDiskConnLoop true ds).1 = 0
  | [], h => by simp [countVideoDescs] at h
  | d :: rest, h => by
    cases hmt : d.mimeType with
    | opus =>
      have hc : 1 ≤ countVideoDescs rest := by
        rw [countVideoDescs_cons, hmt] at h
        simpa using h
      have ih := loop_fail_true rest hc
      simp only [newDiskConnLoop, hmt]
      rw [countVideoTracks_cons]
      have hne : ¬((newTrack d).remote.mimeType = Codec.vp8) := by
        show ¬(d.mimeType = Codec.vp8)
        rw [hmt]
        intro hco
        cases hco
      rw [if_neg hne]
      exact ⟨ih.1, by simpa using ih.2⟩
    | vp8 =>
      simp [newDiskConnLoop, hmt, countVideoTracks]
    | other m =>
      have hc : 1 ≤ countVideoDescs rest := by
        rw [countVideoDescs_cons, hmt] at h
        simpa using h
      have ih := loop_fail_true rest hc
      simp only [newDiskConnLoop, hmt]
      exact ih

theorem loop_fail_false :
    ∀ ds : List CodecDesc, 2 ≤ countVideoDescs ds →
      (newDiskConnLoop false ds).2.2 =
        some ("multiple video tracks not supported") ∧
      countVideoTracks (newDiskConnLoop false ds).1 = 1
  | [], h => by simp [countVideoDescs] at h
  | d :: rest, h => by
    cases hmt : d.mimeType with
    | opus =>
      have hc : 2 ≤ countVideoDescs rest := by
        rw [countVideoDescs_cons, hmt] at h
        simpa using h
      have ih := loop_fail_false rest hc
      simp only [newDiskConnLoop, hmt]
      rw [countVideoTracks_cons]
      have hne : ¬((newTrack d).remote.mimeType = Codec.vp8) := by
        show ¬(d.mimeType = Codec.vp8)
        rw [hmt]
        intro hco
        cases hco
      rw [if_neg hne]
      exact ⟨ih.1, by simpa using ih.2⟩
    | vp8 =>
      have hc : 1 ≤ countVideoDescs rest := by
        rw [countVideoDescs_cons, hmt] at h
        simp at h
        omega
      have ih := loop_fail_true rest hc
      simp only [newDiskConnLoop, hmt, Bool.false_eq_true, if_false]
      rw [countVideoTracks_cons]
      have heq : (newTrack d).remote.mimeType = Codec.vp8 := hmt
      rw [if_pos heq]
      exact ⟨ih.1, by rw [ih.2]⟩
    | other m =>
      have hc : 2 ≤ countVideoDescs rest := by
        rw [countVideoDescs_cons, hmt] at h
        simpa using h
      have ih := loop_fail_false rest hc
      simp only [newDiskConnLoop, hmt]
      exact ih

/-- C7: a track list with two or more VP8 descriptors makes `newDiskConn` fail
with "multiple video tracks not supported", with exactly the first video
track recorder already constructed (and left attached); at most one video
track recorder is ever constructed per connection recorder. -/
theorem c7_single_video_track :
    (∀ ds : List CodecDesc, 2 ≤ countVideoDescs ds →
      (newDiskConn ds).2 = some ("multiple video tracks not supported") ∧
      countVideoTracks (newDiskConn ds).1.tracks = 1) ∧
    (∀ ds : List CodecDesc, countVideoTracks (newDiskConn ds).1.tracks ≤ 1) := by
  constructor
  · intro ds h2
    have h := loop_fail_false ds h2
    exact ⟨by simpa [newDiskConn] using h.1, by simpa [newDiskConn] using h.2⟩
  · intro ds
    have h := loop_vcount_le_false ds
    simpa [newDiskConn] using h

/-- Witness for C7: an Opus track between two VP8 tracks: construction fails
with the expected error, and exactly one video track recorder exists. -/
theorem c7_single_video_track_witness :
    2 ≤ countVideoDescs [vp8Desc, opusDesc, vp8Desc] ∧
    (newDiskConn [vp8Desc, opusDesc, vp8Desc]).2 =
      some ("multiple video tracks not supported") ∧
    countVideoTracks (newDiskConn [vp8Desc, opusDesc, vp8Desc]).1.tracks = 1 :=
  ⟨by decide, c7_single_video_track.1 [vp8Desc, opusDesc, vp8Desc] (by decide)⟩

/-- C9: after `Close` (or `Kick`) the client is marked closed with no held
connection recorders, every held recorder has been closed (all its track
writers cleared), and any subsequent `PushConn` on the closed client fails
with the "disk client is closed" error, leaving the client unchanged and
creating nothing. -/
theorem c9_client_close :
    (∀ cl : Client,
      (clientClose cl).1.closed = true ∧ (clientClose cl).1.down = [] ∧
      (clientClose cl).2 = cl.down.map (fun p => connClose p.2) ∧
      ∀ c ∈ (clientClose cl).2, ∀ t ∈ c.tracks, t.writer = false) ∧
    (∀ cl : Client, clientKick cl = clientClose cl) ∧
    (∀ (cl : Client) (id upId : String) (up : Option (List CodecDesc)) (mk : Bool),
      cl.closed = true →
      clientPushConn cl true id upId up mk = (cl, some ("disk client is closed"))) := by
  refine ⟨?_, fun cl => rfl, ?_⟩
  · intro cl
    refine ⟨rfl, rfl, rfl, ?_⟩
    intro c hc t ht
    simp only [clientClose, List.mem_map] at hc
    obtain ⟨p, _, rfl⟩ := hc
    exact writer_of_mem_map_set p.2.tracks false t ht
  · intro cl id upId up mk hcl
    unfold clientPushConn
    rw [if_neg (by simp), if_pos hcl]

/-- Witness for C9: closing a client holding one initialized recorder, then a
`PushConn` on a closed client. -/
theorem c9_client_close_witness :
    ((clientClose sampleClient).1.closed = true ∧
     (clientClose sampleClient).1.down = [] ∧
     ∀ c ∈ (clientClose sampleClient).2, ∀ t ∈ c.tracks, t.writer = false) ∧
    (closedClient.closed = true ∧
     clientPushConn closedClient true "a" "a" (some [opusDesc]) true =
       (closedClient, some ("disk client is closed"))) := by
  constructor
  · have h := c9_client_close.1 sampleClient
    exact ⟨h.1, h.2.1, h.2.2.2⟩
  · exact ⟨by decide,
      c9_client_close.2.2 closedClient "a" "a" (some [opusDesc]) true (by decide)⟩

end Galene
